import Mathlib

/-! A verification development for the cucumber-rust core (`src/lib.rs`):
the step-dispatch registry and matcher, the scenario/outline execution
loop with its skip cascade, the failure-isolation classification,
outline-variable interpolation, tag/name filtering and the orchestrator.

Rust strings are modelled as Lean `String`; machine side effects of a
handler (mutation of the world, a possible abrupt failure, console
output) are modelled by an explicit `HandlerOutput` record; the external
regex engine is modelled by an `MRegex` record of its observable
behaviour (`is_match` and `captures`).
-/

namespace Cucumber

/-! Section String helpers (models of Rust std string functions) -/

/-- The recursion of `replaceAllL`, made structural on a fuel counter
(each recursive call consumes at least one character of the scanned
list, so a fuel equal to the length of the list never runs out). -/
def replaceAllFuel (p v : List Char) : Nat → List Char → List Char
  | _, [] => if p = [] then v else []
  | 0, c :: cs => c :: cs
  | Nat.succ fuel, c :: cs =>
    if p ≠ [] ∧ p.isPrefixOf (c :: cs) then
      v ++ replaceAllFuel p v fuel ((c :: cs).drop p.length)
    else if p = [] then
      v ++ c :: replaceAllFuel p v fuel cs
    else
      c :: replaceAllFuel p v fuel cs

/-- Model of Rust `str::replace` on character lists: replace every
leftmost, non-overlapping occurrence of `p` by `v`. -/
def replaceAllL (p v s : List Char) : List Char :=
  replaceAllFuel p v s.length s

/-- Model of Rust `text.replace(pattern, value)` on `String`. -/
def strReplace (text pattern value : String) : String :=
  ⟨replaceAllL pattern.data value.data text.data⟩

/-- Model of Rust `s.ends_with(suffix)`. -/
def strEndsWith (s suffix : String) : Bool :=
  suffix.data.isSuffixOf s.data

/-- Does `p` occur as a contiguous sub-list of `s`? -/
def occursL (p : List Char) : List Char → Bool
  | [] => p.isEmpty
  | c :: cs => p.isPrefixOf (c :: cs) || occursL p cs

/-- Model of Rust `rule.split(' ')` on character lists: split at every
space character, keeping empty chunks (as Rust `str::split` does). -/
def splitSpacesL : List Char → List (List Char)
  | [] => [[]]
  | c :: cs =>
    let r := splitSpacesL cs
    if c = ' ' then [] :: r
    else
      match r with
      | [] => [[c]]
      | h :: t => (c :: h) :: t

/-- Model of Rust `rule.split(' ')` on `String`. -/
def splitSpaces (s : String) : List String :=
  (splitSpacesL s.data).map String.mk

/-! Section Data model

The feature tree is supplied by the external gherkin parser; the shape
used by `lib.rs` (step role, text, optional table rows, optional
docstring; scenario tags and examples; feature background and rules) is
modelled below. -/

/-- Model of `gherkin::StepType`: the fixed step roles. -/
inductive StepType where
  | Given
  | When
  | Then
  deriving DecidableEq, Repr

/-- Model of `gherkin::Step`: role, text, optional data table (rows of cells) and
optional docstring, as consumed by `lib.rs`. -/
structure Step where
  ty : StepType
  value : String
  docstring : Option String
  table : Option (List (List String))
  deriving DecidableEq, Repr

/-- Model of the `gherkin::Table` of an `Examples` block: header names and rows. -/
structure ExamplesTable where
  header : List String
  rows : List (List String)
  deriving DecidableEq, Repr

/-- Model of `gherkin::Examples`: the table of an outline. -/
structure Examples where
  table : ExamplesTable
  deriving DecidableEq, Repr

/-- Model of `gherkin::Scenario`: name, optional tag set, steps, optional
examples. -/
structure Scenario where
  name : String
  tags : Option (List String)
  steps : List Step
  examples : Option Examples
  deriving DecidableEq, Repr

/-- Model of `gherkin::Rule`: a named grouping of scenarios. -/
structure Rule where
  name : String
  scenarios : List Scenario
  deriving DecidableEq, Repr

/-- Model of `gherkin::Feature`: background steps (flattened from the optional
`Background`), top-level scenarios and rule groups. -/
structure Feature where
  name : String
  background : Option (List Step)
  scenarios : List Scenario
  rules : List Rule
  deriving DecidableEq, Repr

/-! Section The isolation boundary and handlers -/

/-- Modelled from the spec: `PanicDetails` of the `panic_trap` module
(not under `src/`) carries the message of the abrupt failure (`payload`) and
originating source location, as used by `run_test` and `run_scenario`. -/
structure PanicDetails where
  payload : String
  location : String
  deriving DecidableEq, Repr

/-- Modelled from the spec: `PanicTrapResult` of the `panic_trap` module
(not under `src/`): the outcome of running a unit of work inside the
isolation boundary, together with the console bytes captured during the
work (always captured, regardless of the suppress flag). -/
structure TrapResult (A : Type) where
  result : Except PanicDetails A
  stdout : String
  stderr : String

/-- The observable behaviour of one handler invocation: the world after
the call (mutations before an abrupt failure persist, since the handler
receives the world by mutable reference), an optional abrupt failure,
and the console output produced. -/
structure HandlerOutput (T : Type) where
  world : T
  panic : Option PanicDetails
  stdout : String
  stderr : String

/-- Model of `TestFn<T>`: an exact (normal) step handler. -/
abbrev TestFn (T : Type) : Type := T → Step → HandlerOutput T

/-- Model of `TestRegexFn<T>`: a pattern step handler, also receiving the ordered
capture list. -/
abbrev TestRegexFn (T : Type) : Type := T → List String → Step → HandlerOutput T

/-- Model of the external compiled regex as used by `lib.rs`: the source
text (the comparable identity of a `HashableRegex`), the `is_match`
search test, and the ordered capture-group list of the first match
(index 0 is the whole match; a group that did not participate is
`none`).  The regex crate guarantees that `captures` describes a real
match whenever `is_match` is `true`. -/
structure MRegex where
  source : String
  isMatch : String → Bool
  captures : String → List (Option String)

/-- Model of `TestBag<T>`: the exact bag, keyed by literal step text. -/
abbrev TestBag (T : Type) : Type := List (String × TestFn T)

/-- Model of `RegexBag<T>`: the pattern bag, entries of compiled pattern and
handler. -/
abbrev RegexBag (T : Type) : Type := List (MRegex × TestRegexFn T)

/-- Model of `RegexSteps<T>`: one pattern bag per step role. -/
structure RegexSteps (T : Type) where
  given : RegexBag T
  when : RegexBag T
  thenBag : RegexBag T

/-- Model of `Steps<T>`: the registry, six bags in all. -/
structure Steps (T : Type) where
  given : TestBag T
  when : TestBag T
  thenBag : TestBag T
  regex : RegexSteps T

/-- Accessor `Steps::test_bag_for`. -/
def Steps.test_bag_for {T : Type} (s : Steps T) : StepType → TestBag T
  | StepType.Given => s.given
  | StepType.When => s.when
  | StepType.Then => s.thenBag

/-- Accessor `Steps::regex_bag_for`. -/
def Steps.regex_bag_for {T : Type} (s : Steps T) : StepType → RegexBag T
  | StepType.Given => s.regex.given
  | StepType.When => s.regex.when
  | StepType.Then => s.regex.thenBag

/-- Model of `TestCaseType<T>`: the resolution outcome of `Steps::test_type`
(`None` of the surrounding `Option` is the no-match case). -/
inductive TestCaseType (T : Type) where
  | Normal (t : TestFn T)
  | Regex (t : TestRegexFn T) (captured : List String)

/-- Model of `Steps::test_type`: look the step text up in the exact bag for the
role of the step; if absent, scan the pattern bag and take the first entry
whose pattern matches, collecting every capture group as a string (a
group that did not participate becomes the empty string). -/
def testType {T : Type} (steps : Steps T) (step : Step) : Option (TestCaseType T) :=
  match List.lookup step.value (steps.test_bag_for step.ty) with
  | some t => some (TestCaseType.Normal t)
  | none =>
    match (steps.regex_bag_for step.ty).find? (fun e => e.1.isMatch step.value) with
    | some e =>
      some (TestCaseType.Regex e.2 ((e.1.captures step.value).map (fun m => m.getD "")))
    | none => none

/-- Model of `TestResult` (`lib.rs` lines 64–70): the per-step outcome reported
through the output sink.  Only `Fail` carries data: the failure details
and the two captured console buffers. -/
inductive TestResult where
  | MutexPoisoned
  | Skipped
  | Unimplemented
  | Pass
  | Fail (details : PanicDetails) (stdout : String) (stderr : String)
  deriving DecidableEq, Repr

/-- The classification step of `Steps::run_test` (`lib.rs` lines
169–178): a successful trap result is `Pass` (its captured buffers are
dropped); a trapped abrupt failure whose message ends with the literal
`"cucumber test skipped"` is `Skipped`; any other trapped failure is
`Fail` with details and both captured buffers. -/
def classifyTrap {A : Type} (tr : TrapResult A) : TestResult :=
  match tr.result with
  | Except.ok _ => TestResult.Pass
  | Except.error panic_info =>
    if strEndsWith panic_info.payload "cucumber test skipped" then TestResult.Skipped
    else TestResult.Fail panic_info tr.stdout tr.stderr

/-- Model of `PanicTrap::run` applied to one handler invocation: the
world mutations of the handler persist (mutable reference), its abrupt
failure becomes the `error` case, and its console output is captured
into the buffers of the trap. -/
def trapOf {T : Type} (h : HandlerOutput T) : TrapResult PUnit :=
  { result := match h.panic with
      | none => Except.ok PUnit.unit
      | some pd => Except.error pd
    stdout := h.stdout
    stderr := h.stderr }

/-- The outcome of `Steps::run_test`: the world after the call, the
classified result (`none` when no handler resolved) and the step texts
for which a handler was actually invoked. -/
structure RunTestOut (T : Type) where
  world : T
  result : Option TestResult
  invoked : List String

/-- Model of `Steps::run_test` (`lib.rs` lines 161–179): resolve the step; if no
handler resolves, return `none`; otherwise invoke the resolved handler
inside the isolation boundary and classify the trap result.  The
suppress flag only controls forwarding to the real console, never the
captured buffers or the result. -/
def runTest {T : Type} (steps : Steps T) (world : T) (step : Step)
    (_suppress_output : Bool) : RunTestOut T :=
  match testType steps step with
  | none => ⟨world, none, []⟩
  | some (TestCaseType.Normal t) =>
    let h := t world step
    ⟨h.world, some (classifyTrap (trapOf h)), [step.value]⟩
  | some (TestCaseType.Regex t c) =>
    let h := t world c step
    ⟨h.world, some (classifyTrap (trapOf h)), [step.value]⟩

/-! Section Interpolator -/

/-- The `format!("<{}>", key)` token of `interpolate_outline_variables`. -/
def marker (key : String) : String := "<" ++ key ++ ">"

/-- The `replace_vars` closure of `interpolate_outline_variables`:
apply every `(token, value)` replacement pair, in header order, to one
text. -/
def replaceVars (pairs : List (String × String)) (text : String) : String :=
  pairs.foldl (fun acc kv => strReplace acc kv.1 kv.2) text

/-- Model of `interpolate_outline_variables` (`lib.rs` lines 411–447): build the
`"<name>"` tokens from the header, zip them with the example row, and
apply every replacement in order to the step text, every table cell and
the docstring. -/
def interpolate_outline_variables (step : Step) (header exampleRow : List String) : Step :=
  let keys := header.map marker
  let pairs := keys.zip exampleRow
  { step with
    value := replaceVars pairs step.value
    table := step.table.map (fun rows => rows.map (fun row => row.map (replaceVars pairs)))
    docstring := step.docstring.map (replaceVars pairs) }

/-! Section Hook tag-rule evaluator -/

/-- The chunk loop of `tag_rule_applies`: ignore `"and"` and `"or"`,
return `false` as soon as a chunk is not among the tags of the scenario. -/
def tagRuleGo (tags : List String) : List String → Bool
  | [] => true
  | chunk :: rest =>
    if chunk = "and" || chunk = "or" then tagRuleGo tags rest
    else if tags.contains chunk then tagRuleGo tags rest
    else false

/-- Model of `tag_rule_applies` (`lib.rs` lines 450–470): a scenario without a
tag set always passes; otherwise split the rule on the space character
and require every chunk other than `"and"`/`"or"` to be a tag of the
scenario. -/
def tag_rule_applies (scenario : Scenario) (rule : String) : Bool :=
  match scenario.tags with
  | some tags => tagRuleGo tags (splitSpaces rule)
  | none => true

/-! Section Executor and orchestrator -/

/-- The run configuration consumed by the orchestrator, as read by
`run_scenarios`/`run_scenario` from `cli::CliOptions` (the cli module is
not under `src/`; its fields are modelled from the run
configuration of the spec and their use sites): an optional single literal tag
filter, an optional scenario-name regex filter, and the output-suppress
flag. -/
structure CliOptions where
  tag : Option String
  filter : Option MRegex
  suppressOutput : Bool

/-- One notification to the external output sink, in the order the
`OutputVisitor` methods are called by `lib.rs`; `invokeHandler` is not a
sink notification but records that a handler was invoked for a step
text, so that invocation counts are part of the observable trace. -/
inductive Event where
  | start
  | featureError (err : String)
  | featureStart (name : String)
  | featureEnd (name : String)
  | ruleStart (name : String)
  | ruleEnd (name : String)
  | scenarioStart (name : String)
  | stepStart (stepText : String)
  | invokeHandler (stepText : String)
  | stepResult (stepText : String) (r : TestResult)
  | scenarioSkipped (name : String)
  | scenarioEnd (name : String) (exampleRow : Option (List String))
  | finish
  deriving DecidableEq, Repr

/-- The loop state of the step loop of `Steps::run_scenario`. -/
structure LoopState (T : Type) where
  world : T
  success : Bool
  skipping : Bool
  evs : List Event

/-- The body of the step loop of `Steps::run_scenario` (`lib.rs` lines
229–272).  Mirrors the source faithfully: the step-start notification is
emitted first; `run_test` is evaluated unconditionally (the first
argument of `Option::map_or` is eager, so for an outline row the raw
step is run first and then the interpolated step, and the raw result is
discarded); an unresolved step reports `Unimplemented`; a resolved step
reports `Skipped` when already skipping, else its classified result,
updating the success and skipping flags. -/
def stepLoop {T : Type} (steps : Steps T) (scenario : Scenario)
    (exampleRow : Option (List String)) (sup : Bool)
    (st : LoopState T) (step : Step) : LoopState T :=
  let evs := st.evs ++ [Event.stepStart step.value]
  let raw := runTest steps st.world step sup
  let afterRun : T × Option TestResult × List String :=
    match exampleRow with
    | none => (raw.world, raw.result, raw.invoked)
    | some ex =>
      let header := match scenario.examples with
        | some e => e.table.header
        | none => []
      let istep := interpolate_outline_variables step header ex
      let irun := runTest steps raw.world istep sup
      (irun.world, irun.result, raw.invoked ++ irun.invoked)
  let world := afterRun.1
  let evs := evs ++ afterRun.2.2.map Event.invokeHandler
  match afterRun.2.1 with
  | none =>
    let evs := evs ++ [Event.stepResult step.value TestResult.Unimplemented]
    if st.skipping then ⟨world, st.success, st.skipping, evs⟩
    else ⟨world, st.success, true, evs ++ [Event.scenarioSkipped scenario.name]⟩
  | some r =>
    if st.skipping then
      ⟨world, st.success, st.skipping, evs ++ [Event.stepResult step.value TestResult.Skipped]⟩
    else
      let evs := evs ++ [Event.stepResult step.value r]
      match r with
      | TestResult.Pass => ⟨world, st.success, st.skipping, evs⟩
      | TestResult.Fail _ _ _ => ⟨world, false, true, evs⟩
      | _ => ⟨world, st.success, true, evs ++ [Event.scenarioSkipped scenario.name]⟩

/-- The outcome of `Steps::run_scenario`: the notification trace, the
scenario success flag, and the final world (exposed so that handler side
effects are observable). -/
structure ScenarioOut (T : Type) where
  events : List Event
  success : Bool
  world : T
  deriving Repr

/-- Model of `Steps::run_scenario` (`lib.rs` lines 181–283): emit the
scenario-start notification, construct the world (`world0` models the
value produced by a successful `T::default()`; a construction failure is
fatal to the whole run and is not modelled), run the background steps
followed by the steps of the scenario through the step loop, and emit the
scenario-end notification.  Hooks receive the scenario but have no
effect observable by this model. -/
def runScenario {T : Type} (steps : Steps T) (world0 : T) (feature : Feature)
    (scenario : Scenario) (exampleRow : Option (List String)) (sup : Bool) :
    ScenarioOut T :=
  let stepSeq := feature.background.getD [] ++ scenario.steps
  let r := stepSeq.foldl (stepLoop steps scenario exampleRow sup) ⟨world0, true, false, []⟩
  ⟨Event.scenarioStart scenario.name :: r.evs
      ++ [Event.scenarioEnd scenario.name exampleRow],
    r.success, r.world⟩

/-- Model of `Steps::run_scenarios` (`lib.rs` lines 285–346): for each scenario,
skip it entirely when a tag filter is present and the scenario carries a
tag set not containing the tag, or when a name filter is present and
does not match the scenario name; otherwise run it once per example row
(each row with a freshly constructed world) or once when it has no
examples, accumulating the trace and conjoining success. -/
def runScenarios {T : Type} (steps : Steps T) (world0 : T) (feature : Feature)
    (scenarios : List Scenario) (opts : CliOptions) : List Event × Bool :=
  scenarios.foldl
    (fun acc scenario =>
      let shouldSkip :=
        match scenario.tags, opts.tag with
        | some tags, some tag => !(tags.contains tag)
        | _, _ => false
      if shouldSkip then acc
      else if (match opts.filter with
               | some re => !(re.isMatch scenario.name)
               | none => false) then acc
      else
        match scenario.examples with
        | some ex =>
          ex.table.rows.foldl
            (fun acc2 row =>
              let r := runScenario steps world0 feature scenario (some row) opts.suppressOutput
              (acc2.1 ++ r.events, acc2.2 && r.success))
            acc
        | none =>
          let r := runScenario steps world0 feature scenario none opts.suppressOutput
          (acc.1 ++ r.events, acc.2 && r.success))
    ([], true)

/-- The per-file body of `Steps::run` (`lib.rs` lines 360–403).  Reading
a feature file and parsing it are external; a file is modelled by its
parse outcome (`error` is the gherkin `ParseError`, rendered to a
string).  On a parse error, emit the feature-error notification and
clear the success flag; on success, emit feature-start, run the
top-level scenarios, run the scenarios of every rule bracketed by rule
notifications, and emit feature-end. -/
def runFile {T : Type} (steps : Steps T) (world0 : T) (opts : CliOptions)
    (acc : List Event × Bool) (file : Except String Feature) : List Event × Bool :=
  match file with
  | Except.error e => (acc.1 ++ [Event.featureError e], false)
  | Except.ok feature =>
    let acc := (acc.1 ++ [Event.featureStart feature.name], acc.2)
    let s := runScenarios steps world0 feature feature.scenarios opts
    let acc := (acc.1 ++ s.1, acc.2 && s.2)
    let acc := feature.rules.foldl
      (fun a rule =>
        let rs := runScenarios steps world0 feature rule.scenarios opts
        (a.1 ++ [Event.ruleStart rule.name] ++ rs.1 ++ [Event.ruleEnd rule.name],
          a.2 && rs.2))
      acc
    (acc.1 ++ [Event.featureEnd feature.name], acc.2)

/-- Model of `Steps::run` (`lib.rs` lines 348–408): emit run-start, process every
file in order, emit run-finish, and return the aggregated success flag. -/
def run {T : Type} (steps : Steps T) (world0 : T)
    (files : List (Except String Feature)) (opts : CliOptions) :
    List Event × Bool :=
  let r := files.foldl (runFile steps world0 opts) ([Event.start], true)
  (r.1 ++ [Event.finish], r.2)

/-! Section Derived characterizations and claim statements -/

/-- A concrete model regex: the compiled form of a literal pattern such
as `Regex::new("foo")`.  Its search succeeds exactly when the literal
occurs as a contiguous substring of the text, and the single capture
group (group 0, the whole match) is then the literal itself. -/
def litSearch (lit : String) : MRegex :=
  { source := lit
    isMatch := fun s => occursL lit.data s.data
    captures := fun s => if occursL lit.data s.data then [some lit] else [] }

/-- Wellformedness of a model regex, as the regex crate guarantees it:
whenever `is_match` succeeds, the capture list is non-empty, group 0
participates, and its text (the whole match) is a contiguous substring
of the searched text. -/
def MRegex.Wf (re : MRegex) : Prop :=
  ∀ s, re.isMatch s = true →
    ∃ m gs, re.captures s = some m :: gs ∧ occursL m.data s.data = true

/-- No `"<name>"` token of the header occurs in the step text, in any
cell of its table, or in its docstring. -/
def stepMarkerFreeB (step : Step) (header : List String) : Bool :=
  header.all (fun k =>
    !(occursL (marker k).data step.value.data)
    && (match step.table with
        | some rows => rows.all (fun row => row.all (fun cell => !(occursL (marker k).data cell.data)))
        | none => true)
    && (match step.docstring with
        | some d => !(occursL (marker k).data d.data)
        | none => true))

/-- The notification block one file contributes to the run trace: a
feature-error notification for a parse failure, otherwise feature-start,
the top-level scenario trace, the trace of every rule bracketed by rule
notifications, and feature-end. -/
def fileEvs {T : Type} (steps : Steps T) (world0 : T) (opts : CliOptions) :
    Except String Feature → List Event
  | Except.error e => [Event.featureError e]
  | Except.ok f =>
    Event.featureStart f.name
      :: (runScenarios steps world0 f f.scenarios opts).1
      ++ f.rules.flatMap (fun r =>
          Event.ruleStart r.name
            :: (runScenarios steps world0 f r.scenarios opts).1
            ++ [Event.ruleEnd r.name])
      ++ [Event.featureEnd f.name]

/-- The success contribution of one file: a parse failure contributes
`false`; a parsed feature contributes the conjunction of its top-level
scenario successes and every scenario successes of each rule. -/
def fileOk {T : Type} (steps : Steps T) (world0 : T) (opts : CliOptions) :
    Except String Feature → Bool
  | Except.error _ => false
  | Except.ok f =>
    (runScenarios steps world0 f f.scenarios opts).2
      && f.rules.all (fun r => (runScenarios steps world0 f r.scenarios opts).2)

/-- Claim C4 as stated: the capture list of a pattern resolution has the full
step text at index 0. -/
def C4Stated : Prop :=
  ∀ (T : Type) (steps : Steps T) (step : Step) (t : TestRegexFn T) (caps : List String),
    testType steps step = some (TestCaseType.Regex t caps) →
    caps.head? = some step.value

/-- Claim C5 as stated: a trapped abrupt failure is reclassified as
`Skipped` exactly when its message equals the reserved sentinel string. -/
def C5Stated : Prop :=
  ∀ (A : Type) (tr : TrapResult A) (pd : PanicDetails),
    tr.result = Except.error pd →
    (classifyTrap tr = TestResult.Skipped ↔ pd.payload = "cucumber test skipped")

/-- Claim C6 as stated: under a literal tag filter, a scenario whose tag
set does not contain the tag — including a scenario with no tag set at
all — is omitted from the run entirely (no notifications, success
untouched). -/
def C6Stated : Prop :=
  ∀ (T : Type) (steps : Steps T) (world0 : T) (feature : Feature)
    (scenario : Scenario) (opts : CliOptions) (t : String),
    opts.tag = some t →
    (∀ tags, scenario.tags = some tags → t ∉ tags) →
    runScenarios steps world0 feature [scenario] opts = ([], true)

/-- Claim C7 as stated: for every scenario (with or without a tag set)
and every rule string, the hook fires only if every token other than
`"and"`/`"or"` is present in the tag set of the scenario. -/
def C7Stated : Prop :=
  ∀ (scenario : Scenario) (rule : String),
    tag_rule_applies scenario rule = true →
    ∀ tok ∈ splitSpaces rule, tok ≠ "and" → tok ≠ "or" → tok ∈ scenario.tags.getD []

/-! Section Concrete fixtures -/

/-- An empty registry over a `Nat` world. -/
def emptySteps : Steps Nat := ⟨[], [], [], ⟨[], [], []⟩⟩

/-- C1 fixture: a handler that fails abruptly. -/
def c1Fail : TestFn Nat := fun w _ => ⟨w, some ⟨"boom", "loc1"⟩, "", ""⟩

/-- C1 fixture: a handler that increments the world. -/
def c1Inc : TestFn Nat := fun w _ => ⟨w + 1, none, "", ""⟩

/-- C1 fixture: the two scenario steps. -/
def c1Step1 : Step := ⟨StepType.Given, "first", none, none⟩

/-- C1 fixture: the second scenario step, after the failing one. -/
def c1Step2 : Step := ⟨StepType.Given, "second", none, none⟩

/-- C1 fixture: registry with exact handlers for both steps. -/
def c1Steps : Steps Nat := ⟨[("first", c1Fail), ("second", c1Inc)], [], [], ⟨[], [], []⟩⟩

/-- C1 fixture: a plain two-step scenario whose first step fails. -/
def c1Scenario : Scenario := ⟨"sc", none, [c1Step1, c1Step2], none⟩

/-- C1 fixture: the enclosing feature (no background). -/
def c1Feature : Feature := ⟨"f", none, [c1Scenario], []⟩

/-- C2 fixture: the handler registered for the raw outline step text. -/
def c2Raw : TestFn Nat := fun w _ => ⟨w + 10, none, "", ""⟩

/-- C2 fixture: the handler registered for the interpolated step text. -/
def c2Interp : TestFn Nat := fun w _ => ⟨w + 1, none, "", ""⟩

/-- C2 fixture: registry with exact handlers for both the raw and the
interpolated text of the outline step. -/
def c2Steps : Steps Nat := ⟨[("x is <v>", c2Raw), ("x is 1", c2Interp)], [], [], ⟨[], [], []⟩⟩

/-- C2 fixture: the single outline step. -/
def c2Step : Step := ⟨StepType.Given, "x is <v>", none, none⟩

/-- C2 fixture: an outline scenario with one example row `v = 1`. -/
def c2Scenario : Scenario := ⟨"o", none, [c2Step], some ⟨⟨["v"], [["1"]]⟩⟩⟩

/-- C2 fixture: the enclosing feature. -/
def c2Feature : Feature := ⟨"f2", none, [c2Scenario], []⟩

/-- C3 fixture: the exact handler. -/
def c3H : TestFn Nat := fun w _ => ⟨w + 1, none, "", ""⟩

/-- C3 fixture: a pattern handler whose pattern also matches the step. -/
def c3RH : TestRegexFn Nat := fun w _ _ => ⟨w + 100, none, "", ""⟩

/-- C3 fixture: registry where the same given-step text is both an exact
key and matched by a pattern entry. -/
def c3Steps : Steps Nat :=
  ⟨[("a thing", c3H)], [], [], ⟨[(litSearch "a thing", c3RH)], [], []⟩⟩

/-- C3 fixture: the step whose text is an exact key. -/
def c3Step : Step := ⟨StepType.Given, "a thing", none, none⟩

/-- C4 fixture: the pattern handler. -/
def c4H : TestRegexFn Nat := fun w _ _ => ⟨w, none, "", ""⟩

/-- C4 fixture: registry with only a pattern entry for the unanchored
literal pattern `foo`. -/
def c4Steps : Steps Nat := ⟨[], [], [], ⟨[(litSearch "foo", c4H)], [], []⟩⟩

/-- C4 fixture: a step whose text strictly contains the match. -/
def c4Step : Step := ⟨StepType.Given, "a foo b", none, none⟩

/-- C5 fixture: a handler failing abruptly with a non-sentinel message
and console output on both streams. -/
def c5H : TestFn Nat := fun w _ => ⟨w, some ⟨"oops", "locX"⟩, "out bytes", "err bytes"⟩

/-- C5 fixture: registry holding the failing handler. -/
def c5Steps : Steps Nat := ⟨[("boom step", c5H)], [], [], ⟨[], [], []⟩⟩

/-- C5 fixture: the step resolved to the failing handler. -/
def c5Step : Step := ⟨StepType.Given, "boom step", none, none⟩

/-- C6 fixture: a scenario carrying no tag set at all. -/
def c6Scenario : Scenario := ⟨"sc", none, [⟨StepType.Given, "s", none, none⟩], none⟩

/-- C6 fixture: a scenario whose tag set does not contain the requested
tag. -/
def c6ScenarioTagged : Scenario := ⟨"sct", some ["a"], [⟨StepType.Given, "s", none, none⟩], none⟩

/-- C6 fixture: the enclosing feature. -/
def c6Feature : Feature := ⟨"f6", none, [c6Scenario, c6ScenarioTagged], []⟩

/-- C6 fixture: options requesting the literal tag `t`, no name filter. -/
def c6Opts : CliOptions := ⟨some "t", none, false⟩

/-- C7 fixture: a scenario with no tag set. -/
def c7Scenario : Scenario := ⟨"sc7", none, [], none⟩

/-- C9 fixture: a step with a table and a docstring, none of which
mentions the header token. -/
def c9Step : Step :=
  ⟨StepType.Given, "no tokens here", some "a plain docstring", some [["cell one", "cell two"]]⟩

/-- C9 fixture: the outline header. -/
def c9Header : List String := ["name"]

/-- C9 fixture: the example row. -/
def c9Row : List String := ["value"]

/-- C10 fixture: a handler that succeeds while printing to both
streams. -/
def c10H : TestFn Nat := fun w _ => ⟨w + 1, none, "printed out", "printed err"⟩

/-- C10 fixture: registry holding the passing, printing handler. -/
def c10Steps : Steps Nat := ⟨[("quiet step", c10H)], [], [], ⟨[], [], []⟩⟩

/-- C10 fixture: the step resolved to the passing handler. -/
def c10Step : Step := ⟨StepType.Given, "quiet step", none, none⟩

/-! Section Helper lemmas -/

/-- The compiled form of a literal pattern is wellformed: its whole
match is the literal itself, a substring of the searched text. -/
theorem litSearch_wf (lit : String) : (litSearch lit).Wf := by
  intro s h
  simp only [litSearch] at h ⊢
  exact ⟨lit, [], by simp [h], h⟩

/-! Section C3: exact-bag priority -/

/-- C3: for every step whose text is a key of the exact bag for its
role, resolution returns the exact handler, regardless of the pattern
bag (in particular even when pattern entries also match). -/
theorem c3_exact_priority {T : Type} (steps : Steps T) (step : Step) (t : TestFn T)
    (h : List.lookup step.value (steps.test_bag_for step.ty) = some t) :
    testType steps step = some (TestCaseType.Normal t) := by
  unfold testType
  rw [h]

/-- C3 witness: in a registry where `"a thing"` is an exact key and a
pattern entry also matches it, resolution returns the exact handler. -/
theorem c3_exact_priority_witness :
    (litSearch "a thing").isMatch "a thing" = true
    ∧ testType c3Steps c3Step = some (TestCaseType.Normal c3H) :=
  ⟨by decide, c3_exact_priority c3Steps c3Step c3H rfl⟩

/-! Section C4: pattern-match capture list -/

/-- C4 counterexample: with the unanchored pattern `foo` resolving the
step text `"a foo b"`, capture index 0 is the whole match `"foo"`, not
the full step text. -/
theorem c4_counterexample : ¬ C4Stated := by
  intro h
  have := h Nat c4Steps c4Step c4H ["foo"] rfl
  simp only [List.head?] at this
  exact absurd this (by decide)

/-- C4 amended: the capture list of a pattern resolution is group 0
followed by the remaining groups, each non-participating group as the
empty string, and group 0 (the whole match) is a contiguous substring of
the step text. -/
theorem c4_amended {T : Type} (steps : Steps T) (step : Step)
    (t : TestRegexFn T) (caps : List String)
    (hwf : ∀ e ∈ steps.regex_bag_for step.ty, e.1.Wf)
    (h : testType steps step = some (TestCaseType.Regex t caps)) :
    ∃ (m : String) (gs : List (Option String)),
      caps = m :: gs.map (fun o => o.getD "")
      ∧ occursL m.data step.value.data = true := by
  unfold testType at h
  cases hl : List.lookup step.value (steps.test_bag_for step.ty) with
  | some t0 => rw [hl] at h; exact absurd h (by simp)
  | none =>
    rw [hl] at h
    cases hf : (steps.regex_bag_for step.ty).find? (fun e => e.1.isMatch step.value) with
    | none => rw [hf] at h; exact absurd h (by simp)
    | some e =>
      rw [hf] at h
      simp only [Option.some.injEq, TestCaseType.Regex.injEq] at h
      have hmem : e ∈ steps.regex_bag_for step.ty := List.mem_of_find?_eq_some hf
      have hmatch : e.1.isMatch step.value = true := by
        have := List.find?_some hf
        simpa using this
      obtain ⟨m, gs, hcap, hocc⟩ := hwf e hmem step.value hmatch
      refine ⟨m, gs, ?_, hocc⟩
      rw [← h.2, hcap]
      simp

/-- C4 witness: at the `foo` fixture the amended statement instantiates
with whole match `"foo"` inside step text `"a foo b"`. -/
theorem c4_amended_witness :
    ∃ (m : String) (gs : List (Option String)),
      (["foo"] : List String) = m :: gs.map (fun o => o.getD "")
      ∧ occursL m.data "a foo b".data = true :=
  c4_amended c4Steps c4Step c4H ["foo"]
    (by intro e he
        have he2 : e = (litSearch "foo", c4H) := by
          simpa [c4Steps, c4Step, Steps.regex_bag_for] using he
        rw [he2]
        exact litSearch_wf "foo")
    rfl

/-! Section C5: skip-sentinel classification -/

/-- C5 counterexample: the payload `"not implemented: cucumber test
skipped"` (the very message produced by the `skip!` macro, which panics
through `unimplemented!`) is reclassified as `Skipped` although it does
not equal the sentinel string — classification tests `ends_with`, not
equality. -/
theorem c5_counterexample : ¬ C5Stated := by
  intro h
  have h2 := (h PUnit ⟨Except.error ⟨"not implemented: cucumber test skipped", "l"⟩, "", ""⟩
    ⟨"not implemented: cucumber test skipped", "l"⟩ rfl).mp (by decide)
  exact absurd h2 (by decide)

/-- C5 amended: a handler invocation that fails abruptly inside the
isolation boundary is reclassified as `Skipped` if and only if its
message ends with the reserved sentinel string; any abrupt failure whose
message does not end with it yields `Fail` carrying the failure details
(message and source location) and both captured console buffers. -/
theorem c5_amended {T : Type} (steps : Steps T) (world : T) (step : Step)
    (sup : Bool) (pd : PanicDetails) :
    (∀ t, testType steps step = some (TestCaseType.Normal t) →
      (t world step).panic = some pd →
      (((runTest steps world step sup).result = some TestResult.Skipped
          ↔ strEndsWith pd.payload "cucumber test skipped" = true)
        ∧ (strEndsWith pd.payload "cucumber test skipped" = false →
            (runTest steps world step sup).result
              = some (TestResult.Fail pd (t world step).stdout (t world step).stderr))))
    ∧ (∀ t c, testType steps step = some (TestCaseType.Regex t c) →
      (t world c step).panic = some pd →
      (((runTest steps world step sup).result = some TestResult.Skipped
          ↔ strEndsWith pd.payload "cucumber test skipped" = true)
        ∧ (strEndsWith pd.payload "cucumber test skipped" = false →
            (runTest steps world step sup).result
              = some (TestResult.Fail pd (t world c step).stdout (t world c step).stderr)))) := by
  constructor
  · intro t ht hp
    unfold runTest
    rw [ht]
    simp only [classifyTrap, trapOf, hp]
    cases hs : strEndsWith pd.payload "cucumber test skipped" <;> simp [hs]
  · intro t c ht hp
    unfold runTest
    rw [ht]
    simp only [classifyTrap, trapOf, hp]
    cases hs : strEndsWith pd.payload "cucumber test skipped" <;> simp [hs]

/-- C5 witness: the fixture handler fails with message `"oops"`, which
does not end with the sentinel, and the step outcome is `Fail` carrying
the details and both captured buffers. -/
theorem c5_amended_witness :
    (runTest c5Steps 0 c5Step false).result
      = some (TestResult.Fail ⟨"oops", "locX"⟩ "out bytes" "err bytes") :=
  ((c5_amended c5Steps 0 c5Step false ⟨"oops", "locX"⟩).1 c5H rfl rfl).2 (by decide)

/-! Section C10: a passing invocation discards captured output -/

/-- C10: a handler invocation that completes without abrupt failure
yields the bare `Pass` outcome, whatever console output was captured
during the invocation; by the shape of `TestResult`, only `Fail` carries
the captured buffers. -/
theorem c10_pass_discards_output {T : Type} (steps : Steps T) (world : T)
    (step : Step) (sup : Bool) :
    (∀ t, testType steps step = some (TestCaseType.Normal t) →
      (t world step).panic = none →
      (runTest steps world step sup).result = some TestResult.Pass)
    ∧ (∀ t c, testType steps step = some (TestCaseType.Regex t c) →
      (t world c step).panic = none →
      (runTest steps world step sup).result = some TestResult.Pass) := by
  constructor
  · intro t ht hp
    unfold runTest
    rw [ht]
    simp [classifyTrap, trapOf, hp]
  · intro t c ht hp
    unfold runTest
    rw [ht]
    simp [classifyTrap, trapOf, hp]

/-- C10 witness: the fixture handler prints on both streams and
succeeds; the reported outcome is the bare `Pass`. -/
theorem c10_pass_discards_output_witness :
    (runTest c10Steps 0 c10Step false).result = some TestResult.Pass :=
  (c10_pass_discards_output c10Steps 0 c10Step false).1 c10H rfl rfl

/-! Section C1: the skip cascade still invokes later handlers -/

/-- C1 (code bug, evaluated at the failing input): in a scenario whose
first step fails abruptly, the second step is reported `Skipped`, yet
its handler **is** invoked — the trace records the invocation and the
world carries the side effect of the second handler (0 → 1).  The claim and
the spec say the later handler is never invoked. -/
theorem c1_cascade_violation :
    (runScenario c1Steps 0 c1Feature c1Scenario none false).events =
      [Event.scenarioStart "sc",
       Event.stepStart "first",
       Event.invokeHandler "first",
       Event.stepResult "first" (TestResult.Fail ⟨"boom", "loc1"⟩ "" ""),
       Event.stepStart "second",
       Event.invokeHandler "second",
       Event.stepResult "second" TestResult.Skipped,
       Event.scenarioEnd "sc" none]
    ∧ (runScenario c1Steps 0 c1Feature c1Scenario none false).world = 1 :=
  ⟨by decide, by decide⟩

/-! Section C2: outline steps invoke both raw and interpolated handlers -/

/-- C2 (code bug, evaluated at the failing input): for the outline step
`"x is <v>"` with example row `v = 1`, the single step visit invokes
both the handler registered for the raw text and the handler registered
for the interpolated text `"x is 1"` (the first argument of
`Option::map_or` is evaluated eagerly), and both side effects land in
the world (0 → 10 → 11).  The claim says at most one handler is invoked
per step. -/
theorem c2_double_invocation :
    (runScenario c2Steps 0 c2Feature c2Scenario (some ["1"]) false).events =
      [Event.scenarioStart "o",
       Event.stepStart "x is <v>",
       Event.invokeHandler "x is <v>",
       Event.invokeHandler "x is 1",
       Event.stepResult "x is <v>" TestResult.Pass,
       Event.scenarioEnd "o" (some ["1"])]
    ∧ (runScenario c2Steps 0 c2Feature c2Scenario (some ["1"]) false).world = 11 :=
  ⟨by decide, by decide⟩

/-! Section C7: hook tag-rule evaluator -/

/-- C7 counterexample: a scenario with no tag set fires every hook —
`tag_rule_applies` returns `true` unconditionally — even for the rule
`"x"`, whose token `"x"` is present in no tag set. -/
theorem c7_counterexample : ¬ C7Stated := by
  intro h
  have := h c7Scenario "x" (by decide) "x" (by decide) (by decide) (by decide)
  exact absurd this (by decide)

/-- The chunk loop accepts exactly when every chunk other than `"and"`
and `"or"` is among the tags. -/
theorem tagRuleGo_eq_true_iff (tags : List String) (l : List String) :
    tagRuleGo tags l = true ↔
      ∀ tok ∈ l, tok ≠ "and" → tok ≠ "or" → tok ∈ tags := by
  induction l with
  | nil => simp [tagRuleGo]
  | cons chunk rest ih =>
    rcases eq_or_ne chunk "and" with h1 | h1
    · subst h1
      simp [tagRuleGo, ih, List.forall_mem_cons]
    rcases eq_or_ne chunk "or" with h2 | h2
    · subst h2
      simp [tagRuleGo, ih, List.forall_mem_cons]
    by_cases hc : chunk ∈ tags
    · simp [tagRuleGo, h1, h2, hc, ih, List.forall_mem_cons]
    · simp [tagRuleGo, h1, h2, hc, ih, List.forall_mem_cons]

/-- C7 amended: the evaluator splits the rule on the space character and
ignores `"and"`/`"or"`; for a scenario carrying a tag set the hook fires
if and only if every remaining token is present in that tag set, while a
scenario carrying no tag set always fires the hook. -/
theorem c7_amended (scenario : Scenario) (rule : String) :
    tag_rule_applies scenario rule = true ↔
      (scenario.tags = none ∨
        ∃ tags, scenario.tags = some tags ∧
          ∀ tok ∈ splitSpaces rule, tok ≠ "and" → tok ≠ "or" → tok ∈ tags) := by
  unfold tag_rule_applies
  cases htags : scenario.tags with
  | none => simp
  | some tags =>
    simp only [htags, Option.some.injEq, tagRuleGo_eq_true_iff]
    constructor
    · intro h
      exact Or.inr ⟨tags, rfl, h⟩
    · rintro (h | ⟨tags2, h2, hall⟩)
      · exact absurd h (by simp)
      · cases h2
        exact hall

/-! Section C6: tag-filter omission -/

/-- C6 counterexample: under the tag filter `t`, a scenario carrying no
tag set at all is **not** omitted — `run_scenarios` only skips when the
scenario has a tag set lacking the tag — so the run produces scenario
notifications. -/
theorem c6_counterexample : ¬ C6Stated := by
  intro h
  have := h Nat emptySteps 0 c6Feature c6Scenario c6Opts "t" rfl
    (by intro tags htags; simp [c6Scenario] at htags)
  exact absurd this (by decide)

/-- C6 amended: under a literal tag filter, a scenario carrying a tag
set that does not contain the tag is omitted entirely (no notifications,
success untouched); a scenario carrying no tag set is not omitted by the
tag filter — with no name filter and no examples it is run and its
scenario-start notification is emitted. -/
theorem c6_amended {T : Type} (steps : Steps T) (world0 : T) (feature : Feature)
    (scenario : Scenario) (opts : CliOptions) (t : String)
    (htag : opts.tag = some t) :
    (∀ tags, scenario.tags = some tags → t ∉ tags →
      runScenarios steps world0 feature [scenario] opts = ([], true))
    ∧ (scenario.tags = none → scenario.examples = none → opts.filter = none →
      Event.scenarioStart scenario.name ∈ (runScenarios steps world0 feature [scenario] opts).1) := by
  constructor
  · intro tags htags hnot
    simp [runScenarios, htags, htag, hnot]
  · intro htags hex hfil
    simp [runScenarios, htags, htag, hex, hfil, runScenario]

/-- C6 witness: the tagged fixture scenario (tags `["a"]`, filter tag
`"t"`) is omitted with no notifications, while the untagged fixture
scenario is run and its scenario-start notification appears. -/
theorem c6_amended_witness :
    runScenarios emptySteps 0 c6Feature [c6ScenarioTagged] c6Opts = ([], true)
    ∧ Event.scenarioStart "sc" ∈ (runScenarios emptySteps 0 c6Feature [c6Scenario] c6Opts).1 :=
  ⟨(c6_amended emptySteps 0 c6Feature c6ScenarioTagged c6Opts "t" rfl).1 ["a"] rfl (by decide),
   (c6_amended emptySteps 0 c6Feature c6Scenario c6Opts "t" rfl).2 rfl rfl rfl⟩

/-! Section C9: interpolation identity -/

/-- With a non-empty pattern that does not occur in the scanned list,
replacement returns the list unchanged, for every fuel. -/
theorem replaceAllFuel_of_not_occurs (p v : List Char) (hp : p ≠ []) :
    ∀ (s : List Char) (fuel : Nat), occursL p s = false → replaceAllFuel p v fuel s = s := by
  intro s
  induction s with
  | nil =>
    intro fuel h
    cases fuel <;> simp [replaceAllFuel, hp]
  | cons c cs ih =>
    intro fuel h
    have hx : p.isPrefixOf (c :: cs) = false ∧ occursL p cs = false := by
      simpa [occursL] using h
    cases fuel with
    | zero => rfl
    | succ fuel =>
      simp [replaceAllFuel, hx.1, hp, ih fuel hx.2]

/-- The model of `str::replace` with a non-empty pattern that does not occur in the
text returns the text unchanged. -/
theorem strReplace_of_not_occurs (t p v : String) (hp : p.data ≠ [])
    (h : occursL p.data t.data = false) : strReplace t p v = t := by
  unfold strReplace replaceAllL
  rw [replaceAllFuel_of_not_occurs p.data v.data hp t.data t.data.length h]

/-- Applying a pair list whose keys are non-empty and absent from the
text leaves the text unchanged. -/
theorem replaceVars_of_free (pairs : List (String × String)) (t : String)
    (h : ∀ kv ∈ pairs, kv.1.data ≠ [] ∧ occursL kv.1.data t.data = false) :
    replaceVars pairs t = t := by
  induction pairs with
  | nil => rfl
  | cons kv rest ih =>
    unfold replaceVars at *
    simp only [List.foldl_cons]
    rw [strReplace_of_not_occurs t kv.1 kv.2 (h kv (List.mem_cons_self _ _)).1
      (h kv (List.mem_cons_self _ _)).2]
    exact ih (fun kv2 hm => h kv2 (List.mem_cons_of_mem _ hm))

/-- The characters of a `"<name>"` token. -/
theorem marker_data (k : String) : (marker k).data = '<' :: (k.data ++ ['>']) := by
  cases k
  rfl

/-- A `"<name>"` token is never empty. -/
theorem marker_ne_nil (k : String) : (marker k).data ≠ [] := by
  rw [marker_data]
  simp

/-- C9: if no `"<name>"` token of the header occurs in the step text,
in any cell of its table, or in its docstring, then interpolation with
an example row of a length equal to that of the header returns the step unchanged. -/
theorem c9_interpolation_identity (step : Step) (header row : List String)
    (hlen : header.length = row.length)
    (hfree : stepMarkerFreeB step header = true) :
    interpolate_outline_variables step header row = step := by
  obtain ⟨ty, value, doc, tab⟩ := step
  unfold stepMarkerFreeB at hfree
  rw [List.all_eq_true] at hfree
  have hpairs : ∀ kv ∈ (header.map marker).zip row, ∃ k ∈ header, kv.1 = marker k := by
    intro kv hkv
    obtain ⟨k, hk, hkeq⟩ := List.mem_map.mp (List.of_mem_zip hkv).1
    exact ⟨k, hk, hkeq.symm⟩
  have hrv : ∀ (t : String), (∀ k ∈ header, occursL (marker k).data t.data = false) →
      replaceVars ((header.map marker).zip row) t = t := by
    intro t ht
    apply replaceVars_of_free
    intro kv hkvm
    obtain ⟨k, hk, hkeq⟩ := hpairs kv hkvm
    rw [hkeq]
    exact ⟨marker_ne_nil k, ht k hk⟩
  have hfree2 : ∀ k ∈ header,
      occursL (marker k).data value.data = false
      ∧ (∀ rows, tab = some rows →
          ∀ r ∈ rows, ∀ cell ∈ r, occursL (marker k).data cell.data = false)
      ∧ (∀ d, doc = some d → occursL (marker k).data d.data = false) := by
    intro k hk
    have h := hfree k hk
    simp only [Bool.and_eq_true, Bool.not_eq_true'] at h
    refine ⟨h.1.1, ?_, ?_⟩
    · intro rows hrows r hr cell hcell
      have h2 := h.1.2
      rw [hrows] at h2
      simp only [List.all_eq_true, Bool.not_eq_true'] at h2
      exact h2 r hr cell hcell
    · intro d hd
      have h2 := h.2
      rw [hd] at h2
      simpa using h2
  unfold interpolate_outline_variables
  simp only [Step.mk.injEq]
  refine ⟨trivial, ?_, ?_, ?_⟩
  · exact hrv value (fun k hk => (hfree2 k hk).1)
  · cases doc with
    | none => rfl
    | some d =>
      simp only [Option.map_some']
      rw [hrv d (fun k hk => (hfree2 k hk).2.2 d rfl)]
  · cases tab with
    | none => rfl
    | some rows =>
      simp only [Option.map_some', Option.some.injEq]
      have hrow : ∀ r ∈ rows, r.map (replaceVars ((header.map marker).zip row)) = r := by
        intro r hr
        have hcell : ∀ cell ∈ r, replaceVars ((header.map marker).zip row) cell = cell :=
          fun cell hcell => hrv cell (fun k hk => (hfree2 k hk).2.1 rows rfl r hr cell hcell)
        calc r.map (replaceVars ((header.map marker).zip row))
            = r.map id := List.map_congr_left (by simpa using hcell)
          _ = r := List.map_id r
      calc rows.map (fun r => r.map (replaceVars ((header.map marker).zip row)))
          = rows.map id := List.map_congr_left (by intro r hr; simpa using hrow r hr)
        _ = rows := List.map_id rows

/-- C9 witness: a step carrying a table and a docstring, none mentioning
the header token `"<name>"`, is returned unchanged. -/
theorem c9_interpolation_identity_witness :
    interpolate_outline_variables c9Step c9Header c9Row = c9Step :=
  c9_interpolation_identity c9Step c9Header c9Row (by decide) (by decide)

/-! Section C8: every file is attempted; success is a conjunction -/

/-- The inner rules fold of `runFile`, characterized. -/
theorem rulesFoldl_spec {T : Type} (steps : Steps T) (world0 : T) (opts : CliOptions)
    (f : Feature) (rules : List Rule) (acc : List Event × Bool) :
    rules.foldl
      (fun a rule =>
        let rs := runScenarios steps world0 f rule.scenarios opts
        (a.1 ++ [Event.ruleStart rule.name] ++ rs.1 ++ [Event.ruleEnd rule.name],
          a.2 && rs.2))
      acc
    = (acc.1 ++ rules.flatMap (fun r =>
          Event.ruleStart r.name
            :: (runScenarios steps world0 f r.scenarios opts).1
            ++ [Event.ruleEnd r.name]),
        acc.2 && rules.all (fun r => (runScenarios steps world0 f r.scenarios opts).2)) := by
  induction rules generalizing acc with
  | nil => simp
  | cons r rest ih =>
    simp only [List.foldl_cons, List.flatMap_cons, List.all_cons]
    rw [ih]
    simp [List.append_assoc, Bool.and_assoc]

/-- The file fold of `run`, characterized. -/
theorem runFoldl_spec {T : Type} (steps : Steps T) (world0 : T) (opts : CliOptions)
    (files : List (Except String Feature)) (acc : List Event × Bool) :
    files.foldl (runFile steps world0 opts) acc
    = (acc.1 ++ files.flatMap (fileEvs steps world0 opts),
        acc.2 && files.all (fileOk steps world0 opts)) := by
  induction files generalizing acc with
  | nil => simp
  | cons file rest ih =>
    simp only [List.foldl_cons, List.flatMap_cons, List.all_cons]
    rw [ih]
    cases file with
    | error e => simp [runFile, fileEvs, fileOk]
    | ok f =>
      simp only [runFile, fileEvs, fileOk]
      rw [rulesFoldl_spec]
      simp [List.append_assoc, Bool.and_assoc]

/-- C8: the run emits run-start, then the notification block of every file in
order — a parse error contributes its feature-error notification and
does not prevent the blocks of later files — then run-finish; the returned
flag is the conjunction over all files of parse success and every
scenario success of the parsed feature. -/
theorem c8_run_characterization {T : Type} (steps : Steps T) (world0 : T)
    (files : List (Except String Feature)) (opts : CliOptions) :
    run steps world0 files opts
      = (Event.start :: files.flatMap (fileEvs steps world0 opts) ++ [Event.finish],
         files.all (fileOk steps world0 opts)) := by
  unfold run
  rw [runFoldl_spec]
  simp

end Cucumber
